import Mathlib

/-!
# Verification of the RAG ingestion and retrieval pipeline (`src/rag.py`)

Shallow embedding of the content-addressed incremental indexing and
retrieval pipeline of `rag.py`.  External collaborators (the PDF loader,
the text splitter, the embedding model and the nearest-neighbour search
internals of Chroma) are modelled at their boundary, exactly as the code
uses them: each discovered PDF carries the split-document list the loader
and splitter would produce for it, and similarity search is an opaque
function of the store, the query and `k`.

Python strings are embedded as `String`, Python dicts keyed by strings as
association lists with replace-or-append insertion, Python `None`-able
metadata as `Option`, and fallible code as `Except` / explicit failure
flags in the run environment.
-/

namespace Rag

/-! ## Decimal rendering (model of Python `str(int)` used by f-strings) -/

/-- Digit character for a decimal digit (model of decimal rendering). -/
def digitChar (d : Nat) : Char :=
  match d with
  | 0 => '0' | 1 => '1' | 2 => '2' | 3 => '3' | 4 => '4'
  | 5 => '5' | 6 => '6' | 7 => '7' | 8 => '8' | 9 => '9'
  | _ => '?'

/-- Fuel-driven most-significant-first decimal digit list of `n` (empty for 0). -/
def natCharsAux : Nat → Nat → List Char
  | 0, _ => []
  | fuel + 1, n => if n = 0 then [] else natCharsAux fuel (n / 10) ++ [digitChar (n % 10)]

/-- Decimal digit characters of a natural number, model of Python `str(n)`. -/
def natChars (n : Nat) : List Char :=
  if n = 0 then ['0'] else natCharsAux n n

/-- Model of Python `str(n)` for a natural number. -/
def natToString (n : Nat) : String := String.mk (natChars n)

/-- Model of Python `str(i)` for an integer (possible leading minus sign). -/
def intToString (i : Int) : String :=
  if i < 0 then String.mk ('-' :: natChars i.natAbs) else String.mk (natChars i.natAbs)

/-! ## Documents and the Chroma store -/

/-- A LangChain document: page text plus the metadata fields `rag.py` reads or
writes (`page` from the PDF loader, `source` and `file_sha256` stamped by
`_ingest_pdf`).  Absent metadata is `none`; the loader's integer `page`
metadata is an `Int` as in Python. -/
structure Doc where
  pageContent : String
  page : Option Int
  source : Option String
  fileSha256 : Option String
deriving DecidableEq

/-- One record of the Chroma collection: a document stored under an id. -/
structure StoredUnit where
  id : String
  doc : Doc
deriving DecidableEq

/-- The Chroma collection contents (the vector payloads are opaque and
irrelevant to every claim, so a collection is its list of stored units). -/
structure Chroma where
  units : List StoredUnit
deriving DecidableEq

/-- `Chroma.add_documents(documents=docs, ids=ids)`: store each document
under the id at the same position. -/
def addDocuments (db : Chroma) (docs : List Doc) (ids : List String) : Chroma :=
  ⟨db.units ++ (ids.zip docs).map (fun p => ⟨p.1, p.2⟩)⟩

/-- `rag.py` line 87, `_make_chunk_ids`: the page tag is the `page` metadata
rendered by the f-string, or the literal `na` when absent. -/
def pageTag : Option Int → String
  | some p => intToString p
  | none => "na"

/-- `rag.py` lines 86-87: `_make_chunk_ids(file_sha, docs)` builds
`f"{file_sha}:{d.metadata.get('page', 'na')}:{i}"` for each enumerated doc. -/
def _make_chunk_ids (file_sha : String) (docs : List Doc) : List String :=
  docs.enum.map (fun p => file_sha ++ ":" ++ pageTag p.2.page ++ ":" ++ natToString p.1)

/-- `rag.py` lines 102-110, `_delete_by_source`: when the delete API is
callable and does not raise (`deleteOk`), remove every unit whose `source`
metadata equals `source_path`; otherwise log a warning and leave the store
unchanged.  Never propagates an error. -/
def _delete_by_source (deleteOk : Bool) (vectordb : Chroma) (source_path : String) : Chroma :=
  if deleteOk then ⟨vectordb.units.filter (fun u => u.doc.source ≠ some source_path)⟩
  else vectordb

/-! ## PDFs as scanned and loaded -/

/-- One candidate file of the data directory, together with everything the
external collaborators report about it: `resolved` is `str(path.resolve())`,
`sha256` is the streamed content hash `_sha256_file` returns, `size` and
`mtimeNs` come from `stat()`, and `splitDocs` is the list
`_split_docs(PyPDFLoader(path).load())` — the loader and the splitter are
external, so their (deterministic) output for this file is part of the
file's description. -/
structure PdfFile where
  path : String
  resolved : String
  isFile : Bool
  sha256 : String
  size : Nat
  mtimeNs : Nat
  splitDocs : List Doc
deriving DecidableEq

/-- `rag.py` lines 113-125, `_ingest_pdf`: load and split the PDF, stamp
each chunk's `source` and `file_sha256` metadata, build the chunk ids and
add everything to the store; return the new store and the chunk count. -/
def _ingest_pdf (vectordb : Chroma) (pdf : PdfFile) (file_sha : String) : Chroma × Nat :=
  let docs := pdf.splitDocs.map
    (fun d => { d with source := some pdf.resolved, fileSha256 := some file_sha })
  let ids := _make_chunk_ids file_sha docs
  (addDocuments vectordb docs ids, docs.length)

/-- `rag.py` lines 71-74, `_list_pdfs`: an absent data directory yields `[]`;
otherwise the glob's candidates are filtered by `is_file()` and sorted by
path. -/
def _list_pdfs (dataDir : Option (List PdfFile)) : List PdfFile :=
  match dataDir with
  | none => []
  | some entries =>
      (entries.filter (fun p => p.isFile)).insertionSort (fun a b => a.path ≤ b.path)

/-! ## Manifest -/

/-- `rag.py` lines 175-180 / 212-217: the per-source record the manifest
stores under an absolute source path (the §6 schema of the spec). -/
structure SourceRecord where
  sha256 : String
  size : Nat
  mtime_ns : Nat
  ingested_at_utc : String
deriving DecidableEq

/-- Python dict lookup on a string-keyed association list (first match). -/
def dictGet (m : List (String × SourceRecord)) (k : String) : Option SourceRecord :=
  match m with
  | [] => none
  | (k', v) :: rest => if k' = k then some v else dictGet rest k

/-- Python dict assignment on a string-keyed association list: replace the
value of an existing key in place, else append the binding. -/
def dictInsert (m : List (String × SourceRecord)) (k : String) (v : SourceRecord) :
    List (String × SourceRecord) :=
  match m with
  | [] => [(k, v)]
  | (k', v') :: rest => if k' = k then (k', v) :: rest else (k', v') :: dictInsert rest k v

/-- The manifest's `"files"` mapping (source path → record). -/
structure Manifest where
  files : List (String × SourceRecord)
deriving DecidableEq

/-- State of the manifest file as the schema-level sync logic sees it on
the paths where `_load_manifest` *returns*: absent, caught-corrupt (an
`OSError` while reading or a `json.JSONDecodeError`, both reset to the
empty manifest by the handler of `rag.py` line 57), or stored well-formed
content.  A manifest file whose bytes are not valid UTF-8 is deliberately
not a value of this type: on it `read_text(encoding="utf-8")` raises
`UnicodeDecodeError` — a `ValueError`, uncaught by the handler — so no
manifest value is ever produced; that raising path is modelled by the raw
`ManifestFileState.undecodableBytes` case below and by the raw incremental
branch `incrementalRunRaw`. -/
inductive ManifestSlot where
  | absent
  | corrupt
  | stored (m : Manifest)
deriving DecidableEq

/-- `rag.py` lines 53-60 at the schema level, as `initialize_rag` line 192
consumes it on the returning paths: an absent manifest file, or one whose
read/parse failure is caught (`OSError`, `json.JSONDecodeError`), loads as
the empty manifest; a well-formed one as its content (line 193's
`setdefault("files", {})` is a no-op at this level).  The uncaught
`UnicodeDecodeError` of line 56 yields no manifest at all and so has no
image here; it is modelled by the raw `_load_manifest` below. -/
def loadManifestSlot : ManifestSlot → Manifest
  | .absent => ⟨[]⟩
  | .corrupt => ⟨[]⟩
  | .stored m => m

/-! ## Raw manifest loading (`_load_manifest` over arbitrary JSON)

`_load_manifest` itself parses arbitrary JSON, so claim-level statements
about it are made over a JSON value model. -/

/-- Minimal JSON value model. -/
inductive Json where
  | null
  | bool (b : Bool)
  | num (n : Int)
  | str (s : String)
  | arr (elems : List Json)
  | obj (fields : List (String × Json))

/-- The on-disk state `_load_manifest` can encounter: no file
(`MANIFEST_PATH.exists()` false); a file whose read raises `OSError`; a
file whose bytes are not valid UTF-8, so `read_text(encoding="utf-8")`
raises `UnicodeDecodeError` (a `ValueError` — **not** in the caught tuple
`(json.JSONDecodeError, OSError)` of line 57); a decodable file whose
content fails JSON parsing; or a decodable file parsing to the JSON value
`j`. -/
inductive ManifestFileState where
  | absent
  | unreadable
  | undecodableBytes
  | invalidJson
  | readable (j : Json)

/-- The reset value `{"files": {}}` of `rag.py` lines 59-60. -/
def emptyManifestJson : Json := Json.obj [("files", Json.obj [])]

/-- The uncaught `UnicodeDecodeError` a non-UTF-8 manifest file makes
`read_text(encoding="utf-8")` raise at `rag.py` line 56. -/
def ERR_UNICODE_DECODE : String :=
  "UnicodeDecodeError: utf-8 codec cannot decode byte"

/-- `rag.py` lines 53-60, `_load_manifest`: returns the parsed JSON of a
readable well-formed manifest file, and `{"files": {}}` when the file is
absent or its failure is one the handler catches (`OSError` on read,
`json.JSONDecodeError`); the second component records whether the warning
of line 58 was logged (handler branch only).  A manifest file of
undecodable bytes makes line 56 raise `UnicodeDecodeError`, which the
handler's `(json.JSONDecodeError, OSError)` tuple does not catch, so the
function raises. -/
def _load_manifest : ManifestFileState → Except String (Json × Bool)
  | .absent => .ok (emptyManifestJson, false)
  | .unreadable => .ok (emptyManifestJson, true)
  | .undecodableBytes => .error ERR_UNICODE_DECODE
  | .invalidJson => .ok (emptyManifestJson, true)
  | .readable j => .ok (j, false)

/-! ## The sync orchestrator (`initialize_rag`) -/

/-- The status dict built at `rag.py` lines 135-142 and returned by
`initialize_rag`. -/
structure SyncStatus where
  mode : String
  pdf_total : Nat
  added_pdfs : Nat
  updated_pdfs : Nat
  skipped_pdfs : Nat
  chunks_added : Nat
deriving DecidableEq

/-- Environment of one `initialize_rag` run: the data directory contents
(`none` when `DATA_PATH` does not exist) and the behaviour of the
best-effort collaborators — whether Chroma's delete API is callable and
succeeds, whether `shutil.rmtree` succeeds, whether the manifest
`write_text` succeeds — plus the run's `_utc_now_iso()` timestamp. -/
structure RunEnv where
  dataDir : Option (List PdfFile)
  deleteOk : Bool
  rmtreeOk : Bool
  saveOk : Bool
  nowIso : String
deriving DecidableEq

/-- Mutable state `initialize_rag` reads and writes: the module global
`_vectordb`, whether `DB_PATH` exists and has any entry, the manifest file
(which lives inside `DB_PATH`), and the persisted Chroma collection. -/
structure RagState where
  vectordb : Option Chroma
  dbExists : Bool
  dbNonEmpty : Bool
  manifestSlot : ManifestSlot
  store : Chroma
deriving DecidableEq

/-- Error string for `_save_manifest`'s `write_text` raising `OSError`
(`rag.py` lines 63-68 have no handler, so it propagates). -/
def ERR_SAVE_FAILED : String := "manifest save failed: OSError"

/-- `rag.py` line 23. -/
def ERR_NO_PDF : String := "No PDF documents found in ./data folder."

/-- `rag.py` line 24. -/
def ERR_RAG_NOT_INIT : String :=
  "RAG is not initialized. Please initialize the vector store first."

/-- The manifest record written for a PDF (`rag.py` lines 175-180 and
212-217). -/
def mkRecord (env : RunEnv) (pdf : PdfFile) (file_sha : String) : SourceRecord :=
  ⟨file_sha, pdf.size, pdf.mtimeNs, env.nowIso⟩

/-- The status dict as first built (`rag.py` lines 135-142). -/
def initStatus (n : Nat) : SyncStatus :=
  ⟨"load", n, 0, 0, 0, 0⟩

/-- `rag.py` lines 145-150: on an explicit rebuild with an existing DB
directory, `shutil.rmtree(DB_PATH)` erases the store and the manifest file
inside it; an `OSError` is caught and logged, leaving the state as it was. -/
def doRebuildWipe (rebuild : Bool) (env : RunEnv) (s : RagState) : RagState :=
  if rebuild && s.dbExists then
    if env.rmtreeOk then
      { s with dbExists := false, dbNonEmpty := false, manifestSlot := .absent, store := ⟨[]⟩ }
    else s
  else s

/-- Common tail of both ingestion branches (`rag.py` lines 182-188 and
219-222): `_safe_persist` never changes observable state nor raises; then
`_save_manifest` creates `DB_PATH` and writes the manifest file (making the
directory non-empty) — if its write raises, the error propagates before the
module global `_vectordb` is assigned. -/
def finishRun (env : RunEnv) (s : RagState) (st : SyncStatus) (mf : Manifest) (db : Chroma) :
    RagState × Except String SyncStatus :=
  if env.saveOk then
    ({ s with vectordb := some db, dbExists := true, dbNonEmpty := true,
              manifestSlot := .stored mf, store := db },
     .ok st)
  else
    ({ s with dbExists := true, store := db }, .error ERR_SAVE_FAILED)

/-- One iteration of the incremental loop (`rag.py` lines 195-217):
classify the PDF against its manifest record by recomputed sha256 —
equal hash: count it skipped and touch nothing; differing hash: delete the
source's stored units, count it updated, ingest and replace the record;
no record: count it added, ingest and write the record. -/
def incStep (env : RunEnv) (acc : SyncStatus × Manifest × Chroma) (pdf : PdfFile) :
    SyncStatus × Manifest × Chroma :=
  let status := acc.1
  let manifest := acc.2.1
  let vectordb := acc.2.2
  let src := pdf.resolved
  let file_sha := pdf.sha256
  match dictGet manifest.files src with
  | some prev =>
      if prev.sha256 = file_sha then
        ({ status with skipped_pdfs := status.skipped_pdfs + 1 }, manifest, vectordb)
      else
        let vectordb := _delete_by_source env.deleteOk vectordb src
        let r := _ingest_pdf vectordb pdf file_sha
        ({ status with updated_pdfs := status.updated_pdfs + 1,
                       chunks_added := status.chunks_added + r.2 },
         ⟨dictInsert manifest.files src (mkRecord env pdf file_sha)⟩, r.1)
  | none =>
      let r := _ingest_pdf vectordb pdf file_sha
      ({ status with added_pdfs := status.added_pdfs + 1,
                     chunks_added := status.chunks_added + r.2 },
       ⟨dictInsert manifest.files src (mkRecord env pdf file_sha)⟩, r.1)

/-- One iteration of the fresh-build loop (`rag.py` lines 170-180): ingest
the PDF and record it in the freshly built manifest. -/
def freshStep (env : RunEnv) (acc : Nat × Manifest × Chroma) (pdf : PdfFile) :
    Nat × Manifest × Chroma :=
  let r := _ingest_pdf acc.2.2 pdf pdf.sha256
  (acc.1 + r.2, ⟨dictInsert acc.2.1.files pdf.resolved (mkRecord env pdf pdf.sha256)⟩, r.1)

/-- `rag.py` lines 190-222, the incremental branch: open the persisted
collection (no re-embedding), load the manifest, run the incremental loop,
then persist and save. -/
def incrementalRun (env : RunEnv) (pdfs : List PdfFile) (s : RagState) :
    RagState × Except String SyncStatus :=
  let manifest := loadManifestSlot s.manifestSlot
  let r := pdfs.foldl (incStep env)
    ({ initStatus pdfs.length with mode := "incremental" }, manifest, s.store)
  finishRun env s r.1 r.2.1 r.2.2

/-- `rag.py` lines 161-188, the fresh-build branch: `DB_PATH.mkdir` then
open the persisted collection (whatever it holds if the directory already
existed, empty otherwise), ingest every PDF into it while building a fresh
manifest, set mode `"rebuild"`/`"rebuild_initial"` and `added_pdfs`, then
persist and save. -/
def freshRun (rebuild : Bool) (env : RunEnv) (pdfs : List PdfFile) (s : RagState) :
    RagState × Except String SyncStatus :=
  let vectordb := if s.dbExists then s.store else (⟨[]⟩ : Chroma)
  let r := pdfs.foldl (freshStep env) (0, (⟨[]⟩ : Manifest), vectordb)
  let st := { initStatus pdfs.length with
              mode := if rebuild then "rebuild" else "rebuild_initial",
              added_pdfs := pdfs.length, chunks_added := r.1 }
  finishRun env s st r.2.1 r.2.2

/-- `rag.py` lines 128-222, `initialize_rag`: scan for PDFs and raise
`ERR_NO_PDF` if none; optionally wipe for a rebuild; take the incremental
branch exactly when `DB_PATH` exists non-empty, no rebuild was requested
and the module global `_vectordb` is already set (line 156); otherwise take
the fresh-build branch. -/
def initRag (rebuild : Bool) (env : RunEnv) (s : RagState) :
    RagState × Except String SyncStatus :=
  let pdfs := _list_pdfs env.dataDir
  if pdfs = [] then (s, .error ERR_NO_PDF)
  else
    let s1 := doRebuildWipe rebuild env s
    if s1.dbExists && s1.dbNonEmpty && !rebuild && s1.vectordb.isSome then
      incrementalRun env pdfs s1
    else
      freshRun rebuild env pdfs s1

/-- The incremental branch of `initialize_rag` (`rag.py` lines 190-222)
over the raw manifest-file state: line 192 performs the real
`_load_manifest` before any state mutation, so an exception it raises
propagates out of `initialize_rag` with the state untouched; on a
successful load the branch proceeds as `incrementalRun`, with `decode`
standing for the schema-level reading of the parsed JSON
(`manifest.setdefault("files", {})` and the `manifest["files"]` accesses). -/
def incrementalRunRaw (env : RunEnv) (pdfs : List PdfFile) (s : RagState)
    (mfile : ManifestFileState) (decode : Json → Manifest) :
    RagState × Except String SyncStatus :=
  match _load_manifest mfile with
  | .error e => (s, .error e)
  | .ok jw =>
      let manifest := decode jw.1
      let r := pdfs.foldl (incStep env)
        ({ initStatus pdfs.length with mode := "incremental" }, manifest, s.store)
      finishRun env s r.1 r.2.1 r.2.2

/-! ## Retrieval (`rag_search`) -/

/-- Model of `pathlib.Path(s).name` for POSIX paths without a trailing
separator: the characters after the last `'/'`. -/
def pathName (s : String) : String :=
  String.mk ((s.data.reverse.takeWhile (fun c => c ≠ '/')).reverse)

/-- `rag.py` lines 236-237: the reported source is the file name of the
`source` metadata, with the literal `"unknown"` both as the default for
absent metadata and passed through unchanged. -/
def srcNameOf (d : Doc) : String :=
  let src_path := d.source.getD "unknown"
  if src_path ≠ "unknown" then pathName src_path else "unknown"

/-- `rag.py` lines 238-239: integer page metadata `p` is reported as
`p + 1`; absent (or non-integer, which the `Option Int` model folds into
`none`) page metadata is reported as `"N/A"`. -/
def pageLabelOf (d : Doc) : String :=
  match d.page with
  | some p => intToString (p + 1)
  | none => "N/A"

/-- `rag.py` line 241: one formatted result entry. -/
def formatResult (d : Doc) : String :=
  "**Kaynak:** " ++ srcNameOf d ++ " | **Sayfa:** " ++ pageLabelOf d
    ++ "\n\n" ++ d.pageContent.trim

/-- `rag.py` lines 225-243, `rag_search`: `sim` is the opaque
`similarity_search` of the store (an external collaborator); an
uninitialized module global returns the sentinel, an empty result list
returns the no-information sentinel, otherwise the formatted entries are
joined by the fixed delimiter.  Always returns a string. -/
def rag_search (vdb : Option Chroma) (sim : Chroma → String → Nat → List Doc)
    (query : String) (k : Nat) : String :=
  match vdb with
  | none => ERR_RAG_NOT_INIT
  | some db =>
      let results := sim db query k
      if results = [] then "No relevant information found."
      else String.intercalate "\n\n---\n\n" (results.map formatResult)

/-! ## Lemmas about decimal rendering -/

/-- Decimal digit characters are never the id separator `':'`. -/
theorem digitChar_ne_colon (d : Nat) : digitChar d ≠ ':' := by
  unfold digitChar
  split <;> decide

/-- Numeric value of a digit character (proof-side inverse of `digitChar`). -/
def digitVal (c : Char) : Nat := c.toNat - 48

/-- Numeric value of a digit character list (proof-side inverse of `natChars`). -/
def charsVal (l : List Char) : Nat :=
  l.foldl (fun a c => 10 * a + digitVal c) 0

theorem digitVal_digitChar {d : Nat} (h : d < 10) : digitVal (digitChar d) = d := by
  interval_cases d <;> decide

theorem charsVal_append_single (l : List Char) (c : Char) :
    charsVal (l ++ [c]) = 10 * charsVal l + digitVal c := by
  simp [charsVal, List.foldl_append]

theorem charsVal_natCharsAux : ∀ (fuel n : Nat), n ≤ fuel → charsVal (natCharsAux fuel n) = n := by
  intro fuel
  induction fuel with
  | zero =>
      intro n hn
      interval_cases n
      simp [natCharsAux, charsVal]
  | succ fuel ih =>
      intro n hn
      by_cases h0 : n = 0
      · simp [natCharsAux, h0, charsVal]
      · have hdiv : n / 10 ≤ fuel := by
          have : n / 10 < n := Nat.div_lt_self (Nat.pos_of_ne_zero h0) (by decide)
          omega
        rw [natCharsAux, if_neg h0, charsVal_append_single, ih _ hdiv,
          digitVal_digitChar (Nat.mod_lt _ (by decide))]
        omega

theorem charsVal_natChars (n : Nat) : charsVal (natChars n) = n := by
  by_cases h : n = 0
  · subst h; decide
  · rw [natChars, if_neg h]
    exact charsVal_natCharsAux n n le_rfl

theorem natChars_inj {a b : Nat} (h : natChars a = natChars b) : a = b := by
  have := congrArg charsVal h
  rwa [charsVal_natChars, charsVal_natChars] at this

theorem natCharsAux_ne_colon : ∀ (fuel n : Nat), ∀ c ∈ natCharsAux fuel n, c ≠ ':' := by
  intro fuel
  induction fuel with
  | zero => intro n c hc; simp [natCharsAux] at hc
  | succ fuel ih =>
      intro n c hc
      by_cases h0 : n = 0
      · simp [natCharsAux, h0] at hc
      · rw [natCharsAux, if_neg h0] at hc
        rcases List.mem_append.mp hc with hc | hc
        · exact ih _ c hc
        · rw [List.mem_singleton.mp hc]; exact digitChar_ne_colon _

theorem natChars_ne_colon (n : Nat) : ∀ c ∈ natChars n, c ≠ ':' := by
  intro c hc
  by_cases h : n = 0
  · rw [natChars, if_pos h, List.mem_singleton] at hc
    rw [hc]; decide
  · rw [natChars, if_neg h] at hc
    exact natCharsAux_ne_colon n n c hc

/-! ## Splitting around a separator character -/

/-- If two concatenations agree and both left parts are colon-free, the
parts on each side of the first colon agree. -/
theorem colon_split : ∀ (u v s t : List Char),
    (∀ c ∈ u, c ≠ ':') → (∀ c ∈ v, c ≠ ':') →
    u ++ ':' :: s = v ++ ':' :: t → u = v ∧ s = t := by
  intro u
  induction u with
  | nil =>
      intro v s t _ hv h
      cases v with
      | nil => simpa using h
      | cons c vs =>
          simp only [List.nil_append, List.cons_append, List.cons.injEq] at h
          exact absurd h.1.symm (hv c (by simp))
  | cons a us ih =>
      intro v s t hu hv h
      cases v with
      | nil =>
          simp only [List.cons_append, List.nil_append, List.cons.injEq] at h
          exact absurd h.1 (hu a (by simp))
      | cons b vs =>
          simp only [List.cons_append, List.cons.injEq] at h
          obtain ⟨hab, hrest⟩ := h
          obtain ⟨h1, h2⟩ := ih vs s t (fun c hc => hu c (by simp [hc]))
            (fun c hc => hv c (by simp [hc])) hrest
          exact ⟨by rw [hab, h1], h2⟩

/-- The colon-free segments after the last colon of two equal
concatenations agree. -/
theorem colon_last (a b x y : List Char) (hx : ∀ c ∈ x, c ≠ ':') (hy : ∀ c ∈ y, c ≠ ':')
    (h : a ++ ':' :: x = b ++ ':' :: y) : x = y := by
  have hrev := congrArg List.reverse h
  simp only [List.reverse_append, List.reverse_cons, List.append_assoc,
    List.singleton_append] at hrev
  have := (colon_split x.reverse y.reverse a.reverse b.reverse
      (fun c hc => hx c (List.mem_reverse.mp hc))
      (fun c hc => hy c (List.mem_reverse.mp hc)) hrev).1
  exact List.reverse_injective this

/-! ## Lemmas about chunk ids -/

/-- Two chunk ids with the same hash but different sequence indices differ:
the sequence index is recoverable as the segment after the last colon. -/
theorem chunk_id_inj (sha : String) (p q : Option Int) {i j : Nat}
    (h : sha ++ ":" ++ pageTag p ++ ":" ++ natToString i
       = sha ++ ":" ++ pageTag q ++ ":" ++ natToString j) : i = j := by
  have hd := congrArg String.data h
  simp only [String.data_append] at hd
  have hshape : (sha.data ++ ':' :: (pageTag p).data) ++ ':' :: natChars i
      = (sha.data ++ ':' :: (pageTag q).data) ++ ':' :: natChars j := by
    simpa [List.append_assoc, natToString] using hd
  exact natChars_inj (colon_last _ _ _ _ (natChars_ne_colon i) (natChars_ne_colon j) hshape)

theorem make_chunk_ids_length (sha : String) (docs : List Doc) :
    (_make_chunk_ids sha docs).length = docs.length := by
  simp [_make_chunk_ids]

theorem make_chunk_ids_get (sha : String) (docs : List Doc) (i : Nat) (h : i < docs.length) :
    (_make_chunk_ids sha docs).getD i ""
      = sha ++ ":" ++ pageTag (docs.get ⟨i, h⟩).page ++ ":" ++ natToString i := by
  have hlen : i < (_make_chunk_ids sha docs).length := by
    rw [make_chunk_ids_length]; exact h
  rw [List.getD_eq_getElem _ _ hlen]
  simp [_make_chunk_ids, List.getElem_enum]

theorem make_chunk_ids_nodup (sha : String) (docs : List Doc) :
    (_make_chunk_ids sha docs).Nodup := by
  rw [List.nodup_iff_injective_get]
  rintro ⟨i, hi⟩ ⟨j, hj⟩ hij
  have hi' : i < docs.length := by rwa [make_chunk_ids_length] at hi
  have hj' : j < docs.length := by rwa [make_chunk_ids_length] at hj
  have e1 : (_make_chunk_ids sha docs).getD i "" = (_make_chunk_ids sha docs).get ⟨i, hi⟩ := by
    rw [List.getD_eq_getElem _ _ hi]; rfl
  have e2 : (_make_chunk_ids sha docs).getD j "" = (_make_chunk_ids sha docs).get ⟨j, hj⟩ := by
    rw [List.getD_eq_getElem _ _ hj]; rfl
  have := (make_chunk_ids_get sha docs i hi').symm.trans
    (e1.trans (hij.trans (e2.symm.trans (make_chunk_ids_get sha docs j hj'))))
  exact Fin.ext (chunk_id_inj sha _ _ this)

/-- C9: chunk identity is stable: the id assigned to the chunk at position
`i` is exactly `<file_sha>:<page-metadata-or-na>:<i>`, the id sequence is a
deterministic function of the content hash and the split output (it is
unchanged under any change of the chunks that preserves their page
metadata), and the ids of one document's chunks are pairwise distinct. -/
theorem chunk_identity_stability (sha : String) (docs : List Doc) :
    (_make_chunk_ids sha docs).length = docs.length ∧
    (∀ (i : Nat) (h : i < docs.length),
        (_make_chunk_ids sha docs).getD i ""
          = sha ++ ":" ++ pageTag (docs.get ⟨i, h⟩).page ++ ":" ++ natToString i) ∧
    (_make_chunk_ids sha docs).Nodup ∧
    (∀ docs' : List Doc, docs.map Doc.page = docs'.map Doc.page →
        _make_chunk_ids sha docs = _make_chunk_ids sha docs') := by
  refine ⟨make_chunk_ids_length sha docs, make_chunk_ids_get sha docs,
    make_chunk_ids_nodup sha docs, ?_⟩
  intro docs' hmap
  have hlen : docs.length = docs'.length := by
    have := congrArg List.length hmap
    simpa using this
  apply List.ext_getElem
  · rw [make_chunk_ids_length, make_chunk_ids_length, hlen]
  · intro i h1 h2
    have hi : i < docs.length := by rwa [make_chunk_ids_length] at h1
    have hi' : i < docs'.length := by rwa [make_chunk_ids_length] at h2
    have hpage : (docs.get ⟨i, hi⟩).page = (docs'.get ⟨i, hi'⟩).page := by
      have := congrArg (fun l => l.getD i (none : Option Int)) hmap
      simp only at this
      rwa [List.getD_eq_getElem _ _ (by simpa using hi),
        List.getD_eq_getElem _ _ (by simpa using hi'), List.getElem_map,
        List.getElem_map] at this
    have f1 := make_chunk_ids_get sha docs i hi
    have f2 := make_chunk_ids_get sha docs' i hi'
    rw [List.getD_eq_getElem _ _ h1] at f1
    rw [List.getD_eq_getElem _ _ h2] at f2
    rw [f1, f2, hpage]

/-- C9 witness: concrete evaluation of the per-position id formula. -/
theorem chunk_identity_stability_witness :
    (_make_chunk_ids "abc" [⟨"t", some 0, none, none⟩, ⟨"u", none, none, none⟩]).getD 1 ""
      = "abc:na:1" := by
  have h := (chunk_identity_stability "abc"
    [⟨"t", some 0, none, none⟩, ⟨"u", none, none, none⟩]).2.1 1 (by decide)
  rw [h]
  decide

/-! ## Dictionary lemmas -/

theorem dictGet_dictInsert_self (m : List (String × SourceRecord)) (k : String)
    (v : SourceRecord) : dictGet (dictInsert m k v) k = some v := by
  induction m with
  | nil => simp [dictInsert, dictGet]
  | cons p rest ih =>
      obtain ⟨k', v'⟩ := p
      by_cases h : k' = k
      · simp [dictInsert, dictGet, h]
      · simp [dictInsert, dictGet, h, ih]

theorem dictGet_dictInsert_ne (m : List (String × SourceRecord)) (k k' : String)
    (v : SourceRecord) (h : k' ≠ k) : dictGet (dictInsert m k v) k' = dictGet m k' := by
  induction m with
  | nil =>
      simp only [dictInsert, dictGet]
      rw [if_neg (fun hh : k = k' => h hh.symm)]
  | cons p rest ih =>
      obtain ⟨a, b⟩ := p
      by_cases ha : a = k
      · subst ha
        simp only [dictInsert, dictGet, if_pos rfl]
        rw [if_neg (fun hh : a = k' => h hh.symm), if_neg (fun hh : a = k' => h hh.symm)]
      · simp [dictInsert, dictGet, ha, ih]

/-- The manifest records every listed PDF's resolved path with its current
content hash. -/
def manifestCovers (mf : Manifest) (pdfs : List PdfFile) : Prop :=
  ∀ pdf ∈ pdfs, ∃ r, dictGet mf.files pdf.resolved = some r ∧ r.sha256 = pdf.sha256

/-! ## Manifest effect of the ingestion folds -/

theorem foldl_get_stable {α : Type} (step : α → PdfFile → α) (mOf : α → Manifest)
    (hother : ∀ acc pdf k, k ≠ pdf.resolved →
      dictGet (mOf (step acc pdf)).files k = dictGet (mOf acc).files k) :
    ∀ (pdfs : List PdfFile) (acc : α) (k : String), k ∉ pdfs.map (fun p => p.resolved) →
      dictGet (mOf (pdfs.foldl step acc)).files k = dictGet (mOf acc).files k := by
  intro pdfs
  induction pdfs with
  | nil => intro acc k _; rfl
  | cons p ps ih =>
      intro acc k hk
      simp only [List.map_cons, List.mem_cons, not_or] at hk
      rw [List.foldl_cons, ih _ _ hk.2, hother _ _ _ hk.1]

theorem foldl_covers {α : Type} (step : α → PdfFile → α) (mOf : α → Manifest)
    (hself : ∀ acc pdf, ∃ r, dictGet (mOf (step acc pdf)).files pdf.resolved = some r ∧
      r.sha256 = pdf.sha256)
    (hother : ∀ acc pdf k, k ≠ pdf.resolved →
      dictGet (mOf (step acc pdf)).files k = dictGet (mOf acc).files k) :
    ∀ (pdfs : List PdfFile) (acc : α), (pdfs.map (fun p => p.resolved)).Nodup →
      manifestCovers (mOf (pdfs.foldl step acc)) pdfs := by
  intro pdfs
  induction pdfs with
  | nil => intro acc _ pdf hmem; cases hmem
  | cons p ps ih =>
      intro acc hnd pdf hmem
      simp only [List.map_cons, List.nodup_cons] at hnd
      rw [List.foldl_cons]
      rcases List.mem_cons.mp hmem with h | h
      · subst h
        obtain ⟨r, hr, hsha⟩ := hself acc pdf
        refine ⟨r, ?_, hsha⟩
        rw [foldl_get_stable step mOf hother ps (step acc pdf) pdf.resolved hnd.1, hr]
      · exact ih (step acc p) hnd.2 pdf h

theorem incStep_get_self (env : RunEnv) (acc : SyncStatus × Manifest × Chroma)
    (pdf : PdfFile) : ∃ r, dictGet ((incStep env acc pdf).2.1).files pdf.resolved = some r ∧
      r.sha256 = pdf.sha256 := by
  rcases h : dictGet acc.2.1.files pdf.resolved with _ | prev
  · exact ⟨mkRecord env pdf pdf.sha256, by simp [incStep, h, dictGet_dictInsert_self], rfl⟩
  · by_cases hs : prev.sha256 = pdf.sha256
    · exact ⟨prev, by simp [incStep, h, hs], hs⟩
    · exact ⟨mkRecord env pdf pdf.sha256,
        by simp [incStep, h, hs, dictGet_dictInsert_self], rfl⟩

theorem incStep_get_other (env : RunEnv) (acc : SyncStatus × Manifest × Chroma)
    (pdf : PdfFile) (k : String) (hk : k ≠ pdf.resolved) :
    dictGet ((incStep env acc pdf).2.1).files k = dictGet acc.2.1.files k := by
  rcases h : dictGet acc.2.1.files pdf.resolved with _ | prev
  · simp [incStep, h, dictGet_dictInsert_ne _ _ _ _ hk]
  · by_cases hs : prev.sha256 = pdf.sha256
    · simp [incStep, h, hs]
    · simp [incStep, h, hs, dictGet_dictInsert_ne _ _ _ _ hk]

theorem freshStep_get_self (env : RunEnv) (acc : Nat × Manifest × Chroma) (pdf : PdfFile) :
    ∃ r, dictGet ((freshStep env acc pdf).2.1).files pdf.resolved = some r ∧
      r.sha256 = pdf.sha256 :=
  ⟨mkRecord env pdf pdf.sha256, by simp [freshStep, dictGet_dictInsert_self], rfl⟩

theorem freshStep_get_other (env : RunEnv) (acc : Nat × Manifest × Chroma) (pdf : PdfFile)
    (k : String) (hk : k ≠ pdf.resolved) :
    dictGet ((freshStep env acc pdf).2.1).files k = dictGet acc.2.1.files k := by
  simp [freshStep, dictGet_dictInsert_ne _ _ _ _ hk]

/-! ## The incremental loop on an unchanged directory skips everything -/

theorem foldl_incStep_skip (env : RunEnv) : ∀ (pdfs : List PdfFile) (st : SyncStatus)
    (m : Manifest) (db : Chroma), manifestCovers m pdfs →
    pdfs.foldl (incStep env) (st, m, db)
      = ({ st with skipped_pdfs := st.skipped_pdfs + pdfs.length }, m, db) := by
  intro pdfs
  induction pdfs with
  | nil => intro st m db _; simp
  | cons p ps ih =>
      intro st m db hcov
      obtain ⟨r, hr, hsha⟩ := hcov p (by simp)
      have hstep : incStep env (st, m, db) p
          = ({ st with skipped_pdfs := st.skipped_pdfs + 1 }, m, db) := by
        simp [incStep, hr, hsha]
      rw [List.foldl_cons, hstep, ih _ _ _ (fun pdf h => hcov pdf (by simp [h]))]
      have harith : st.skipped_pdfs + 1 + ps.length = st.skipped_pdfs + (ps.length + 1) := by
        omega
      simp [harith]

/-! ## Counter bookkeeping of the incremental loop -/

theorem incStep_fields (env : RunEnv) (acc : SyncStatus × Manifest × Chroma) (pdf : PdfFile) :
    (incStep env acc pdf).1.mode = acc.1.mode ∧
    (incStep env acc pdf).1.pdf_total = acc.1.pdf_total ∧
    (incStep env acc pdf).1.skipped_pdfs + (incStep env acc pdf).1.added_pdfs
        + (incStep env acc pdf).1.updated_pdfs
      = acc.1.skipped_pdfs + acc.1.added_pdfs + acc.1.updated_pdfs + 1 := by
  rcases h : dictGet acc.2.1.files pdf.resolved with _ | prev
  · refine ⟨?_, ?_, ?_⟩ <;> · simp [incStep, h]; try omega
  · by_cases hs : prev.sha256 = pdf.sha256
    all_goals refine ⟨?_, ?_, ?_⟩ <;> · simp [incStep, h, hs]; try omega

theorem foldl_incStep_fields (env : RunEnv) : ∀ (pdfs : List PdfFile)
    (acc : SyncStatus × Manifest × Chroma),
    (pdfs.foldl (incStep env) acc).1.mode = acc.1.mode ∧
    (pdfs.foldl (incStep env) acc).1.pdf_total = acc.1.pdf_total ∧
    (pdfs.foldl (incStep env) acc).1.skipped_pdfs + (pdfs.foldl (incStep env) acc).1.added_pdfs
        + (pdfs.foldl (incStep env) acc).1.updated_pdfs
      = acc.1.skipped_pdfs + acc.1.added_pdfs + acc.1.updated_pdfs + pdfs.length := by
  intro pdfs
  induction pdfs with
  | nil => intro acc; exact ⟨rfl, rfl, by simp⟩
  | cons p ps ih =>
      intro acc
      obtain ⟨hm, ht, hc⟩ := incStep_fields env acc p
      obtain ⟨hm', ht', hc'⟩ := ih (incStep env acc p)
      refine ⟨by rw [List.foldl_cons, hm', hm], by rw [List.foldl_cons, ht', ht], ?_⟩
      rw [List.foldl_cons, hc', hc]
      simp
      omega

/-! ## Shapes of the two ingestion branches -/

theorem finishRun_ok {env : RunEnv} {s : RagState} {st : SyncStatus} {mf : Manifest}
    {db : Chroma} {s₁ : RagState} {st₁ : SyncStatus}
    (h : finishRun env s st mf db = (s₁, .ok st₁)) :
    env.saveOk = true ∧ st₁ = st ∧
    s₁ = ⟨some db, true, true, ManifestSlot.stored mf, db⟩ := by
  unfold finishRun at h
  split at h
  · injection h with h1 h2
    injection h2 with h3
    exact ⟨by assumption, h3.symm, h1.symm⟩
  · injection h with h1 h2
    exact absurd h2 (by intro hh; exact Except.noConfusion hh)

theorem initRag_eq {rb : Bool} {env : RunEnv} {s : RagState}
    (hne : ¬ _list_pdfs env.dataDir = []) :
    initRag rb env s =
      (if (doRebuildWipe rb env s).dbExists && (doRebuildWipe rb env s).dbNonEmpty && !rb
          && (doRebuildWipe rb env s).vectordb.isSome
       then incrementalRun env (_list_pdfs env.dataDir) (doRebuildWipe rb env s)
       else freshRun rb env (_list_pdfs env.dataDir) (doRebuildWipe rb env s)) := by
  simp only [initRag]
  rw [if_neg hne]

theorem doRebuildWipe_false (env : RunEnv) (s : RagState) : doRebuildWipe false env s = s := by
  simp [doRebuildWipe]

/-- Any successful run leaves the module global set to the persisted store,
the DB directory existing and non-empty, and a stored manifest that records
every scanned PDF under its resolved path with its current hash. -/
theorem initRag_ok_shape {rb : Bool} {env : RunEnv} {s s₁ : RagState} {st₁ : SyncStatus}
    (h : initRag rb env s = (s₁, .ok st₁))
    (hnd : ((_list_pdfs env.dataDir).map (fun p => p.resolved)).Nodup) :
    env.saveOk = true ∧ ∃ mf db,
      s₁ = ⟨some db, true, true, ManifestSlot.stored mf, db⟩ ∧
      manifestCovers mf (_list_pdfs env.dataDir) := by
  by_cases hne : _list_pdfs env.dataDir = []
  · simp only [initRag] at h
    rw [if_pos hne] at h
    injection h with h1 h2
    exact absurd h2 (by intro hh; exact Except.noConfusion hh)
  · rw [initRag_eq hne] at h
    split at h
    · simp only [incrementalRun] at h
      obtain ⟨hsave, hst, hs1⟩ := finishRun_ok h
      refine ⟨hsave, _, _, hs1, ?_⟩
      exact foldl_covers (incStep env) (fun acc => acc.2.1) (incStep_get_self env)
        (incStep_get_other env) (_list_pdfs env.dataDir) _ hnd
    · simp only [freshRun] at h
      obtain ⟨hsave, hst, hs1⟩ := finishRun_ok h
      refine ⟨hsave, _, _, hs1, ?_⟩
      exact foldl_covers (freshStep env) (fun acc => acc.2.1) (freshStep_get_self env)
        (freshStep_get_other env) (_list_pdfs env.dataDir) _ hnd

/-- Any successful run's status comes from exactly one of the two branches:
the incremental branch (mode `"incremental"`, counters summing to the
total, branch condition true) or the fresh-build branch (mode `"rebuild"`
or `"rebuild_initial"`, all PDFs counted added, branch condition false). -/
theorem initRag_ok_status {rb : Bool} {env : RunEnv} {s s₁ : RagState} {st₁ : SyncStatus}
    (h : initRag rb env s = (s₁, .ok st₁)) :
    (st₁.mode = "incremental" ∧ st₁.pdf_total = (_list_pdfs env.dataDir).length ∧
      st₁.skipped_pdfs + st₁.added_pdfs + st₁.updated_pdfs = st₁.pdf_total ∧
      ((doRebuildWipe rb env s).dbExists && (doRebuildWipe rb env s).dbNonEmpty && !rb
        && (doRebuildWipe rb env s).vectordb.isSome) = true) ∨
    (st₁.mode = (if rb then "rebuild" else "rebuild_initial") ∧
      st₁.pdf_total = (_list_pdfs env.dataDir).length ∧
      st₁.added_pdfs = (_list_pdfs env.dataDir).length ∧
      st₁.updated_pdfs = 0 ∧ st₁.skipped_pdfs = 0 ∧
      ((doRebuildWipe rb env s).dbExists && (doRebuildWipe rb env s).dbNonEmpty && !rb
        && (doRebuildWipe rb env s).vectordb.isSome) = false) := by
  by_cases hne : _list_pdfs env.dataDir = []
  · simp only [initRag] at h
    rw [if_pos hne] at h
    injection h with h1 h2
    exact absurd h2 (by intro hh; exact Except.noConfusion hh)
  · rw [initRag_eq hne] at h
    split at h
    · left
      simp only [incrementalRun] at h
      obtain ⟨hsave, hst, hs1⟩ := finishRun_ok h
      obtain ⟨hm, ht, hc⟩ := foldl_incStep_fields env (_list_pdfs env.dataDir)
        ({ initStatus (_list_pdfs env.dataDir).length with mode := "incremental" },
         loadManifestSlot (doRebuildWipe rb env s).manifestSlot, (doRebuildWipe rb env s).store)
      subst hst
      refine ⟨hm, ht, ?_, by assumption⟩
      rw [hc, ht]
      simp [initStatus]
    · right
      simp only [freshRun] at h
      obtain ⟨hsave, hst, hs1⟩ := finishRun_ok h
      subst hst
      refine ⟨rfl, rfl, rfl, rfl, rfl, ?_⟩
      rename_i hcond
      exact Bool.not_eq_true _ ▸ (by simpa using hcond)

/-! ## Retrieval claims -/

/-- C5: `rag_search` never raises in the two empty cases and always
returns a string: with no initialized index it returns the
not-initialized sentinel; with an initialized index whose query yields
zero matches it returns the no-information sentinel; otherwise one
formatted entry per matched unit joined by the fixed delimiter. -/
theorem retrieval_sentinels (db : Chroma) (sim : Chroma → String → Nat → List Doc)
    (q : String) (k : Nat) :
    rag_search none sim q k = ERR_RAG_NOT_INIT ∧
    (sim db q k = [] → rag_search (some db) sim q k = "No relevant information found.") ∧
    (sim db q k ≠ [] → rag_search (some db) sim q k
        = String.intercalate "\n\n---\n\n" ((sim db q k).map formatResult)) := by
  refine ⟨rfl, ?_, ?_⟩ <;> intro h <;> simp [rag_search, h]

/-- C5 witness: the two sentinel cases at concrete inputs. -/
theorem retrieval_sentinels_witness :
    rag_search (some ⟨[]⟩) (fun _ _ _ => []) "q" 4 = "No relevant information found." ∧
    rag_search none (fun _ _ _ => []) "q" 4 = ERR_RAG_NOT_INIT :=
  ⟨(retrieval_sentinels ⟨[]⟩ (fun _ _ _ => []) "q" 4).2.1 rfl,
   (retrieval_sentinels ⟨[]⟩ (fun _ _ _ => []) "q" 4).1⟩

/-- C6 (code bug): the never-raises contract fails on a manifest file of
undecodable bytes — `read_text(encoding="utf-8")` raises
`UnicodeDecodeError`, a `ValueError` the handler's
`(json.JSONDecodeError, OSError)` tuple does not catch — while the absent,
`OSError`-unreadable and invalid-JSON cases do reset to `{"files": {}}`
(warning logged in the handler cases) and a readable well-formed file
loads as its parsed content, as the claim and the code's own
`ERR_MANIFEST_BAD` reset message intend. -/
theorem manifest_load_decode_bug (j : Json) :
    _load_manifest .undecodableBytes = Except.error ERR_UNICODE_DECODE ∧
    _load_manifest .absent = Except.ok (emptyManifestJson, false) ∧
    _load_manifest .unreadable = Except.ok (emptyManifestJson, true) ∧
    _load_manifest .invalidJson = Except.ok (emptyManifestJson, true) ∧
    _load_manifest (.readable j) = Except.ok (j, false) ∧
    emptyManifestJson = Json.obj [("files", Json.obj [])] :=
  ⟨rfl, rfl, rfl, rfl, rfl, rfl⟩

/-- A run of characters satisfying `p` followed by a failing character is
exactly what `takeWhile p` keeps. -/
theorem takeWhile_all_append (p : Char → Bool) (l : List Char) (c : Char) (t : List Char)
    (hl : ∀ x ∈ l, p x = true) (hc : p c = false) :
    List.takeWhile p (l ++ c :: t) = l := by
  induction l with
  | nil => simp [List.takeWhile, hc]
  | cons a as ih =>
      simp only [List.cons_append, List.takeWhile]
      rw [hl a (by simp)]
      simp only [List.cons.injEq, true_and]
      exact ih (fun x hx => hl x (by simp [hx]))

/-- `pathName` keeps exactly the final path component. -/
theorem pathName_append (dir f : String) (hf : ∀ c ∈ f.data, c ≠ '/') :
    pathName (dir ++ "/" ++ f) = f := by
  unfold pathName
  have hdata : (dir ++ "/" ++ f).data = dir.data ++ '/' :: f.data := by
    simp [String.data_append]
  rw [hdata, show (dir.data ++ '/' :: f.data).reverse
      = f.data.reverse ++ '/' :: dir.data.reverse by simp,
    takeWhile_all_append _ _ _ _
      (fun x hx => by simp [hf x (List.mem_reverse.mp hx)]) (by simp),
    List.reverse_reverse]

/-- C7: a search result's source is reported as its file name only, stored
integer page metadata `p` is reported as page `p + 1` (stored page `0`
becomes page `1`), and a unit without integer page metadata is reported as
`"N/A"`; `rag_search` builds each entry from exactly these two pieces. -/
theorem citation_formatting (d : Doc) (p : Int) (path dir f : String) :
    (d.page = some p → pageLabelOf d = intToString (p + 1)) ∧
    (d.page = some 0 → pageLabelOf d = "1") ∧
    (d.page = none → pageLabelOf d = "N/A") ∧
    (d.source = some path → srcNameOf d = pathName path) ∧
    ((∀ c ∈ f.data, c ≠ '/') → pathName (dir ++ "/" ++ f) = f) ∧
    (formatResult d = "**Kaynak:** " ++ srcNameOf d ++ " | **Sayfa:** " ++ pageLabelOf d
      ++ "\n\n" ++ d.pageContent.trim) := by
  refine ⟨?_, ?_, ?_, ?_, pathName_append dir f, rfl⟩
  · intro h; simp [pageLabelOf, h]
  · intro h; rw [show pageLabelOf d = intToString (0 + 1) by simp [pageLabelOf, h]]; decide
  · intro h; simp [pageLabelOf, h]
  · intro h
    by_cases hu : path = "unknown"
    · subst hu
      rw [show pathName "unknown" = "unknown" by decide]
      simp [srcNameOf, h]
    · simp [srcNameOf, h, hu]

/-- C7 witness: concrete page and source formatting. -/
theorem citation_formatting_witness :
    pageLabelOf ⟨"txt", some 0, some "/base/data/a.pdf", none⟩ = "1" ∧
    pathName ("/base/data" ++ "/" ++ "a.pdf") = "a.pdf" ∧
    srcNameOf ⟨"txt", some 0, some "/base/data/a.pdf", none⟩ = "a.pdf" := by
  have h := citation_formatting ⟨"txt", some 0, some "/base/data/a.pdf", none⟩ 0
    "/base/data/a.pdf" "/base/data" "a.pdf"
  refine ⟨h.2.1 rfl, h.2.2.2.2.1 (by decide), ?_⟩
  rw [h.2.2.2.1 rfl]
  decide

/-! ## Ingest metadata and delete precision (C10) -/

/-- C10: every chunk stored by `_ingest_pdf` carries `source` metadata equal
to the PDF's resolved path and `file_sha256` metadata equal to the hash its
chunk id starts with, and `_delete_by_source` filters on exactly that
`source` value — so on a store holding no prior unit for the path, the
delete issued after an ingest removes precisely the ingested chunks. -/
theorem ingest_delete_precision (db : Chroma) (pdf : PdfFile) (sha src : String)
    (hfresh : ∀ u ∈ db.units, u.doc.source ≠ some pdf.resolved) :
    ((_ingest_pdf db pdf sha).1.units).length = db.units.length + pdf.splitDocs.length ∧
    (∀ u ∈ ((_ingest_pdf db pdf sha).1.units).drop db.units.length,
        u.doc.source = some pdf.resolved ∧ u.doc.fileSha256 = some sha ∧
        ∃ rest, u.id = sha ++ ":" ++ rest) ∧
    ((_delete_by_source true db src).units
      = db.units.filter (fun u => u.doc.source ≠ some src)) ∧
    ((_delete_by_source true (_ingest_pdf db pdf sha).1 pdf.resolved).units = db.units) := by
  have hunits : (_ingest_pdf db pdf sha).1.units
      = db.units ++ ((_make_chunk_ids sha (pdf.splitDocs.map
          (fun d => { d with source := some pdf.resolved, fileSha256 := some sha }))).zip
            (pdf.splitDocs.map
              (fun d => { d with source := some pdf.resolved, fileSha256 := some sha }))).map
          (fun p => ⟨p.1, p.2⟩) := rfl
  have hmem : ∀ u ∈ ((_make_chunk_ids sha (pdf.splitDocs.map
          (fun d => { d with source := some pdf.resolved, fileSha256 := some sha }))).zip
            (pdf.splitDocs.map
              (fun d => { d with source := some pdf.resolved, fileSha256 := some sha }))).map
          (fun p => (⟨p.1, p.2⟩ : StoredUnit)),
      u.doc.source = some pdf.resolved ∧ u.doc.fileSha256 = some sha ∧
        ∃ rest, u.id = sha ++ ":" ++ rest := by
    intro u hu
    obtain ⟨q, hq, rfl⟩ := List.mem_map.mp hu
    have hq1 := (List.of_mem_zip hq).1
    have hq2 := (List.of_mem_zip hq).2
    obtain ⟨d0, _, hd0⟩ := List.mem_map.mp hq2
    obtain ⟨e, _, he⟩ := List.mem_map.mp hq1
    refine ⟨by rw [← hd0], by rw [← hd0], pageTag e.2.page ++ (":" ++ natToString e.1), ?_⟩
    rw [← he, String.append_assoc, String.append_assoc, String.append_assoc]
  refine ⟨?_, ?_, by simp [_delete_by_source], ?_⟩
  · rw [hunits]
    simp [List.length_zip, make_chunk_ids_length]
  · intro u hu
    rw [hunits, List.drop_left] at hu
    exact hmem u hu
  · rw [_delete_by_source, if_pos rfl, hunits, List.filter_append]
    have h1 : db.units.filter (fun u => u.doc.source ≠ some pdf.resolved) = db.units :=
      List.filter_eq_self.mpr (fun u hu => by simp [hfresh u hu])
    have h2 : (((_make_chunk_ids sha (pdf.splitDocs.map
          (fun d => { d with source := some pdf.resolved, fileSha256 := some sha }))).zip
            (pdf.splitDocs.map
              (fun d => { d with source := some pdf.resolved, fileSha256 := some sha }))).map
          (fun p => (⟨p.1, p.2⟩ : StoredUnit))).filter
            (fun u => u.doc.source ≠ some pdf.resolved) = [] := by
      refine List.filter_eq_nil_iff.mpr (fun u hu => ?_)
      have := (hmem u hu).1
      simp [this]
    rw [h1, h2, List.append_nil]

/-- C10 witness: concrete delete-after-ingest returning the prior store. -/
theorem ingest_delete_precision_witness :
    (_delete_by_source true
      (_ingest_pdf ⟨[⟨"x:na:0", ⟨"other", none, some "/base/data/b.pdf", some "x"⟩⟩]⟩
        ⟨"data/a.pdf", "/base/data/a.pdf", true, "sha-a", 10, 5,
          [⟨"hello", some 0, none, none⟩]⟩ "sha-a").1
      "/base/data/a.pdf").units
    = [⟨"x:na:0", ⟨"other", none, some "/base/data/b.pdf", some "x"⟩⟩] := by
  exact (ingest_delete_precision
    ⟨[⟨"x:na:0", ⟨"other", none, some "/base/data/b.pdf", some "x"⟩⟩]⟩
    ⟨"data/a.pdf", "/base/data/a.pdf", true, "sha-a", 10, 5,
      [⟨"hello", some 0, none, none⟩]⟩ "sha-a" "unused" (by decide)).2.2.2

/-! ## Successful / failed run constructors -/

theorem initRag_ok_of_saveOk (rb : Bool) (env : RunEnv) (s : RagState)
    (hne : ¬ _list_pdfs env.dataDir = []) (hsave : env.saveOk = true) :
    ∃ s' st, initRag rb env s = (s', Except.ok st) := by
  rw [initRag_eq hne]
  by_cases hcond : ((doRebuildWipe rb env s).dbExists && (doRebuildWipe rb env s).dbNonEmpty
      && !rb && (doRebuildWipe rb env s).vectordb.isSome) = true
  · rw [if_pos hcond]
    exact ⟨_, _, by simp only [incrementalRun, finishRun]; rw [if_pos hsave]⟩
  · rw [if_neg hcond]
    exact ⟨_, _, by simp only [freshRun, finishRun]; rw [if_pos hsave]⟩

theorem initRag_saveFail (rb : Bool) (env : RunEnv) (s : RagState)
    (hne : ¬ _list_pdfs env.dataDir = []) (hsave : ¬ env.saveOk = true) :
    ∃ s', initRag rb env s = (s', Except.error ERR_SAVE_FAILED) := by
  rw [initRag_eq hne]
  by_cases hcond : ((doRebuildWipe rb env s).dbExists && (doRebuildWipe rb env s).dbNonEmpty
      && !rb && (doRebuildWipe rb env s).vectordb.isSome) = true
  · rw [if_pos hcond]
    exact ⟨_, by simp only [incrementalRun, finishRun]; rw [if_neg hsave]⟩
  · rw [if_neg hcond]
    exact ⟨_, by simp only [freshRun, finishRun]; rw [if_neg hsave]⟩

/-! ## Concrete run fixtures -/

/-- A one-page PDF whose splitter output is a single chunk. -/
def pdfW : PdfFile :=
  ⟨"data/a.pdf", "/base/data/a.pdf", true, "sha-a", 10, 5, [⟨"hello", some 0, none, none⟩]⟩

/-- Environment with `pdfW` on disk and all best-effort operations healthy. -/
def envW : RunEnv := ⟨some [pdfW], true, true, true, "t0"⟩

/-- Manifest record matching `pdfW`'s current content hash. -/
def recW : SourceRecord := ⟨"sha-a", 10, 5, "t0"⟩

/-- The store contents after ingesting `pdfW`. -/
def dbW : Chroma :=
  ⟨[⟨"sha-a:0:0", ⟨"hello", some 0, some "/base/data/a.pdf", some "sha-a"⟩⟩]⟩

/-- Manifest covering `pdfW`. -/
def mfW : Manifest := ⟨[("/base/data/a.pdf", recW)]⟩

/-- Fully initialized state: handle set, index present, manifest stored. -/
def sW : RagState := ⟨some dbW, true, true, .stored mfW, dbW⟩

/-- Pristine process state: no handle, no index directory, no manifest. -/
def sEmptyW : RagState := ⟨none, false, false, .absent, ⟨[]⟩⟩

/-- Fresh-process state: index directory and manifest both persisted from an
earlier process, but the module global `_vectordb` not yet set. -/
def sNoHandle : RagState := ⟨none, true, true, .stored mfW, dbW⟩

/-! ## C2: idempotent unchanged re-sync -/

/-- C2: running an incremental sync twice in a row with no change to the
source directory in between yields `added_pdfs = 0`, `updated_pdfs = 0`,
`skipped_pdfs = pdf_total`, `chunks_added = 0` on the second run, and the
vector index's stored unit count is unchanged by the second run. -/
theorem idempotent_resync {env : RunEnv} {s s₁ : RagState} {st₁ : SyncStatus}
    (hnd : ((_list_pdfs env.dataDir).map (fun p => p.resolved)).Nodup)
    (h1 : initRag false env s = (s₁, Except.ok st₁))
    (_hmode : st₁.mode = "incremental") :
    ∃ s₂ st₂, initRag false env s₁ = (s₂, Except.ok st₂) ∧
      st₂.mode = "incremental" ∧ st₂.added_pdfs = 0 ∧ st₂.updated_pdfs = 0 ∧
      st₂.skipped_pdfs = st₂.pdf_total ∧ st₂.chunks_added = 0 ∧
      s₂.store.units.length = s₁.store.units.length := by
  obtain ⟨hsave, mf, db, hs1, hcov⟩ := initRag_ok_shape h1 hnd
  have hne : ¬ _list_pdfs env.dataDir = [] := by
    intro hemp
    simp only [initRag] at h1
    rw [if_pos hemp] at h1
    injection h1 with h1a h1b
    exact Except.noConfusion h1b
  have hcond : (s₁.dbExists && s₁.dbNonEmpty && !false && s₁.vectordb.isSome) = true := by
    rw [hs1]
    rfl
  have hms : s₁.manifestSlot = ManifestSlot.stored mf := by
    rw [hs1]
  have hrun : initRag false env s₁
      = (⟨some s₁.store, true, true, ManifestSlot.stored mf, s₁.store⟩,
         Except.ok ⟨"incremental", (_list_pdfs env.dataDir).length, 0, 0,
                    0 + (_list_pdfs env.dataDir).length, 0⟩) := by
    rw [initRag_eq hne, doRebuildWipe_false, if_pos hcond]
    simp only [incrementalRun, hms, loadManifestSlot]
    rw [foldl_incStep_skip env _ _ _ _ hcov]
    simp only [finishRun]
    rw [if_pos hsave]
    rfl
  exact ⟨_, _, hrun, rfl, rfl, rfl, by simp, rfl, rfl⟩

/-- C2 witness: a concrete incremental re-sync over one unchanged PDF. -/
theorem idempotent_resync_witness :
    ∃ s₂ st₂, initRag false envW sW = (s₂, Except.ok st₂) ∧
      st₂.mode = "incremental" ∧ st₂.added_pdfs = 0 ∧ st₂.updated_pdfs = 0 ∧
      st₂.skipped_pdfs = st₂.pdf_total ∧ st₂.chunks_added = 0 ∧
      s₂.store.units.length = sW.store.units.length :=
  idempotent_resync (by decide)
    (show initRag false envW sW = (sW, Except.ok ⟨"incremental", 1, 0, 0, 1, 0⟩) from rfl)
    rfl

/-! ## C3: change detection classification -/

/-- C3: in an incremental sync each discovered source falls in exactly one
of three cases against its manifest record: equal hash — skipped, nothing
touched; no record — added, chunks ingested, record written; differing
hash — updated, with the delete-by-source issued before the re-ingest and
the record replaced.  Consequently the three counters sum to `pdf_total`. -/
theorem change_detection_classification (env : RunEnv) :
    (∀ (st : SyncStatus) (m : Manifest) (db : Chroma) (pdf : PdfFile) (r : SourceRecord),
      dictGet m.files pdf.resolved = some r → r.sha256 = pdf.sha256 →
        incStep env (st, m, db) pdf
          = ({ st with skipped_pdfs := st.skipped_pdfs + 1 }, m, db)) ∧
    (∀ (st : SyncStatus) (m : Manifest) (db : Chroma) (pdf : PdfFile),
      dictGet m.files pdf.resolved = none →
        incStep env (st, m, db) pdf
          = ({ st with
               added_pdfs := st.added_pdfs + 1,
               chunks_added := st.chunks_added + pdf.splitDocs.length },
             ⟨dictInsert m.files pdf.resolved (mkRecord env pdf pdf.sha256)⟩,
             (_ingest_pdf db pdf pdf.sha256).1)) ∧
    (∀ (st : SyncStatus) (m : Manifest) (db : Chroma) (pdf : PdfFile) (r : SourceRecord),
      dictGet m.files pdf.resolved = some r → ¬ r.sha256 = pdf.sha256 →
        incStep env (st, m, db) pdf
          = ({ st with
               updated_pdfs := st.updated_pdfs + 1,
               chunks_added := st.chunks_added + pdf.splitDocs.length },
             ⟨dictInsert m.files pdf.resolved (mkRecord env pdf pdf.sha256)⟩,
             (_ingest_pdf (_delete_by_source env.deleteOk db pdf.resolved)
               pdf pdf.sha256).1)) ∧
    (∀ (rb : Bool) (s s' : RagState) (st : SyncStatus),
      initRag rb env s = (s', Except.ok st) → st.mode = "incremental" →
      st.skipped_pdfs + st.added_pdfs + st.updated_pdfs = st.pdf_total) := by
  refine ⟨?_, ?_, ?_, ?_⟩
  · intro st m db pdf r hget hsha
    simp [incStep, hget, hsha]
  · intro st m db pdf hget
    simp [incStep, hget, _ingest_pdf]
  · intro st m db pdf r hget hsha
    simp [incStep, hget, hsha, _ingest_pdf]
  · intro rb s s' st h hmode
    rcases initRag_ok_status h with ⟨_, _, hsum, _⟩ | ⟨hm, _, _, _, _, _⟩
    · exact hsum
    · rw [hmode] at hm
      cases rb
      · exact absurd hm (by decide)
      · exact absurd hm (by decide)

/-- C3 witness: the skip case at a concrete unchanged PDF. -/
theorem change_detection_classification_witness :
    incStep envW (⟨"incremental", 1, 0, 0, 0, 0⟩, mfW, dbW) pdfW
      = (⟨"incremental", 1, 0, 0, 1, 0⟩, mfW, dbW) :=
  (change_detection_classification envW).1 ⟨"incremental", 1, 0, 0, 0, 0⟩ mfW dbW pdfW
    recW rfl rfl

/-! ## C1: branch selection between incremental and fresh build -/

/-- C1 counterexample: with the persisted index directory existing and
non-empty, a stored manifest, and no rebuild requested, but the in-process
handle unset (a fresh process), `initialize_rag` takes the fresh-build path:
it returns mode `"rebuild_initial"`, not `"incremental"`, and re-embeds the
unchanged PDF (`chunks_added = 1 ≠ 0`). -/
theorem fresh_build_despite_manifest :
    sNoHandle.dbExists = true ∧ sNoHandle.dbNonEmpty = true ∧
    sNoHandle.manifestSlot = ManifestSlot.stored mfW ∧
    (initRag false envW sNoHandle).2 = Except.ok ⟨"rebuild_initial", 1, 1, 0, 0, 1⟩ ∧
    (⟨"rebuild_initial", 1, 1, 0, 0, 1⟩ : SyncStatus).mode ≠ "incremental" ∧
    (⟨"rebuild_initial", 1, 1, 0, 0, 1⟩ : SyncStatus).chunks_added ≠ 0 :=
  ⟨rfl, rfl, rfl, rfl, by decide, by decide⟩

/-- C1 (amended): the incremental path is taken exactly when the index
directory exists and is non-empty, no rebuild is requested, **and** the
in-process vector-store handle is already set; the manifest's existence is
not consulted, and in every other case the fresh-build path runs. -/
theorem incremental_branch_condition (rb : Bool) (env : RunEnv) (s : RagState)
    (hne : ¬ _list_pdfs env.dataDir = []) (hsave : env.saveOk = true) :
    ∃ s' st, initRag rb env s = (s', Except.ok st) ∧
      (st.mode = "incremental" ↔
        (s.dbExists = true ∧ s.dbNonEmpty = true ∧ rb = false ∧
          s.vectordb.isSome = true)) := by
  obtain ⟨s', st, hrun⟩ := initRag_ok_of_saveOk rb env s hne hsave
  refine ⟨s', st, hrun, ?_⟩
  rcases initRag_ok_status hrun with ⟨hm, _, _, hcond⟩ | ⟨hm, _, _, _, _, hcond⟩
  · simp only [Bool.and_eq_true, Bool.not_eq_true'] at hcond
    obtain ⟨⟨⟨ha, hb⟩, hrb⟩, hc⟩ := hcond
    subst hrb
    rw [doRebuildWipe_false] at ha hb hc
    exact ⟨fun _ => ⟨ha, hb, rfl, hc⟩, fun _ => hm⟩
  · constructor
    · intro hmm
      rw [hmm] at hm
      cases rb
      · exact absurd hm (by decide)
      · exact absurd hm (by decide)
    · rintro ⟨ha, hb, hrb, hc⟩
      subst hrb
      rw [doRebuildWipe_false] at hcond
      rw [ha, hb, hc] at hcond
      simp at hcond

/-- C1 witness: the branch condition evaluated on a fully initialized
state. -/
theorem incremental_branch_condition_witness :
    ∃ s' st, initRag false envW sW = (s', Except.ok st) ∧
      (st.mode = "incremental" ↔
        (sW.dbExists = true ∧ sW.dbNonEmpty = true ∧ false = false ∧
          sW.vectordb.isSome = true)) :=
  incremental_branch_condition false envW sW (by decide) rfl

/-! ## C4: the only fatal condition -/

/-- C4 (code bug): a manifest-load failure *does* propagate to the caller.
At the failing input — an incremental sync against a manifest file of
undecodable bytes — line 192's `_load_manifest` raises
`UnicodeDecodeError` out of `initialize_rag` before any state mutation,
and the propagated condition is distinct from the no-sources error the
claim says is the only one to reach the caller. -/
theorem manifest_load_failure_propagates (env : RunEnv) (pdfs : List PdfFile)
    (s : RagState) (decode : Json → Manifest) :
    incrementalRunRaw env pdfs s .undecodableBytes decode
      = (s, Except.error ERR_UNICODE_DECODE) ∧
    ERR_UNICODE_DECODE ≠ ERR_NO_PDF :=
  ⟨rfl, by decide⟩

/-! ## C8: the set of returned modes -/

/-- C8 counterexample: a first-time build without an explicit rebuild
returns mode `"rebuild_initial"`, which is none of the three values
`"rebuild"`, `"fresh"`, `"incremental"` the claim allows. -/
theorem mode_fresh_is_rebuild_initial :
    (initRag false envW sEmptyW).2 = Except.ok ⟨"rebuild_initial", 1, 1, 0, 0, 1⟩ ∧
    (⟨"rebuild_initial", 1, 1, 0, 0, 1⟩ : SyncStatus).mode ≠ "rebuild" ∧
    (⟨"rebuild_initial", 1, 1, 0, 0, 1⟩ : SyncStatus).mode ≠ "fresh" ∧
    (⟨"rebuild_initial", 1, 1, 0, 0, 1⟩ : SyncStatus).mode ≠ "incremental" :=
  ⟨rfl, by decide, by decide, by decide⟩

/-- C8 (amended): every returned status has mode in exactly
`{"rebuild", "rebuild_initial", "incremental"}`. -/
theorem sync_mode_values (rb : Bool) (env : RunEnv) (s s' : RagState) (st : SyncStatus)
    (h : initRag rb env s = (s', Except.ok st)) :
    st.mode = "rebuild" ∨ st.mode = "rebuild_initial" ∨ st.mode = "incremental" := by
  rcases initRag_ok_status h with ⟨hm, _⟩ | ⟨hm, _⟩
  · exact Or.inr (Or.inr hm)
  · cases rb
    · exact Or.inr (Or.inl (by simpa using hm))
    · exact Or.inl (by simpa using hm)

/-- C8 witness: the mode of a concrete first-time build. -/
theorem sync_mode_values_witness :
    (⟨"rebuild_initial", 1, 1, 0, 0, 1⟩ : SyncStatus).mode = "rebuild" ∨
    (⟨"rebuild_initial", 1, 1, 0, 0, 1⟩ : SyncStatus).mode = "rebuild_initial" ∨
    (⟨"rebuild_initial", 1, 1, 0, 0, 1⟩ : SyncStatus).mode = "incremental" :=
  sync_mode_values false envW sEmptyW sW ⟨"rebuild_initial", 1, 1, 0, 0, 1⟩ rfl

end Rag
